import Mathlib

/-!
Shallow embedding of `src/chinese_cli/srs.py` (SM-2 spaced repetition).

Modelling conventions:
* Python `float` values (ease factor, timestamps) are modelled as exact
  rationals `ℚ`; Python `int` fields are also carried in `ℚ` so that the
  untyped JSON persistence layer can be embedded uniformly (Python ints are
  a subset of `ℚ`, and every integer produced by the code is exact).
* Python's builtin `round` uses round-half-to-even on floats; `pyRound`
  below implements that rule on `ℚ`.
* `time.time()` is passed explicitly as a parameter `now : ℚ`.
-/

namespace Srs

/-- Round half to even, the semantics of Python's builtin `round`. -/
def pyRound (q : ℚ) : ℤ :=
  let f : ℤ := ⌊q⌋
  let r : ℚ := q - f
  if r < 1/2 then f
  else if 1/2 < r then f + 1
  else if f % 2 = 0 then f else f + 1

/-- `CardState` dataclass from `srs.py`, with the dataclass defaults. -/
structure CardState where
  hanzi : String
  ease_factor : ℚ := 5/2
  interval : ℚ := 0
  repetitions : ℚ := 0
  next_review : ℚ := 0
  total_reviews : ℚ := 0
  correct_reviews : ℚ := 0
  last_reviewed : ℚ := 0
  deriving DecidableEq, Repr

/-- `CardState.is_due` : `time.time() >= self.next_review`. -/
def is_due (c : CardState) (now : ℚ) : Bool :=
  c.next_review ≤ now

/-- `CardState.mastery_level`. -/
def mastery_level (c : CardState) : String :=
  if c.repetitions = 0 then "new"
  else if c.repetitions < 3 then "learning"
  else if c.repetitions < 6 then "reviewing"
  else "mastered"

/-- `_sm2_update(card, quality)` from `srs.py`.  The two `time.time()`
calls in the body are modelled by the single parameter `now`. -/
def sm2_update (card : CardState) (quality : ℤ) (now : ℚ) : CardState :=
  let c1 := { card with total_reviews := card.total_reviews + 1,
                        last_reviewed := now }
  let c2 :=
    if 3 ≤ quality then
      let newInterval : ℚ :=
        if c1.repetitions = 0 then 1
        else if c1.repetitions = 1 then 6
        else (pyRound (c1.interval * c1.ease_factor) : ℚ)
      { c1 with correct_reviews := c1.correct_reviews + 1,
                interval := newInterval,
                repetitions := c1.repetitions + 1 }
    else
      { c1 with repetitions := 0, interval := 1 }
  let dq : ℚ := ((5 - quality : ℤ) : ℚ)
  let newEase : ℚ := max (13/10) (c2.ease_factor + (1/10 - dq * (2/25 + dq * (1/50))))
  let c3 := { c2 with ease_factor := newEase }
  { c3 with next_review := now + c3.interval * 86400 }

/-- A fresh card as created by `ProgressTracker.get_card`. -/
def freshCard (h : String) : CardState := { hanzi := h }

/-- Apply a sequence of reviews `(quality, now)` to a card. -/
def reviewSeq (c : CardState) : List (ℤ × ℚ) → CardState
  | [] => c
  | (q, t) :: rest => reviewSeq (sm2_update c q t) rest

end Srs

namespace Srs

/-- The ease factor produced by `sm2_update` is always at least 1.3,
because the assignment is clamped with `max`. -/
lemma sm2_update_ease_lb (card : CardState) (q : ℤ) (now : ℚ) :
    13/10 ≤ (sm2_update card q now).ease_factor := by
  simp only [sm2_update]
  exact le_max_left _ _

/-- C1: for `quality ≥ 3` the update increments `repetitions`,
`correct_reviews` and `total_reviews` by one and sets `interval` to
1 / 6 / round(prior interval × prior ease factor) according to the
prior `repetitions`, using the pre-update ease factor. -/
theorem sm2_success_progression (card : CardState) (q : ℤ) (now : ℚ) (h : 3 ≤ q) :
    (sm2_update card q now).repetitions = card.repetitions + 1 ∧
    (sm2_update card q now).correct_reviews = card.correct_reviews + 1 ∧
    (sm2_update card q now).total_reviews = card.total_reviews + 1 ∧
    (sm2_update card q now).interval =
      (if card.repetitions = 0 then 1
       else if card.repetitions = 1 then 6
       else (pyRound (card.interval * card.ease_factor) : ℚ)) := by
  simp only [sm2_update, if_pos h]
  exact ⟨trivial, trivial, trivial, trivial⟩

theorem sm2_success_progression_witness :
    (3:ℤ) ≤ 5 ∧
    ((sm2_update (freshCard "a") 5 0).repetitions = (freshCard "a").repetitions + 1 ∧
     (sm2_update (freshCard "a") 5 0).correct_reviews = (freshCard "a").correct_reviews + 1 ∧
     (sm2_update (freshCard "a") 5 0).total_reviews = (freshCard "a").total_reviews + 1 ∧
     (sm2_update (freshCard "a") 5 0).interval =
       (if (freshCard "a").repetitions = 0 then 1
        else if (freshCard "a").repetitions = 1 then 6
        else (pyRound ((freshCard "a").interval * (freshCard "a").ease_factor) : ℚ))) :=
  ⟨by norm_num, sm2_success_progression (freshCard "a") 5 0 (by norm_num)⟩

/-- C2: for `quality < 3` the update resets `repetitions` to 0 and
`interval` to 1 regardless of prior state, leaves `correct_reviews`
unchanged, and still increments `total_reviews`. -/
theorem sm2_failure_reset (card : CardState) (q : ℤ) (now : ℚ) (h : q < 3) :
    (sm2_update card q now).repetitions = 0 ∧
    (sm2_update card q now).interval = 1 ∧
    (sm2_update card q now).correct_reviews = card.correct_reviews ∧
    (sm2_update card q now).total_reviews = card.total_reviews + 1 := by
  simp only [sm2_update, if_neg (not_le.mpr h)]
  simp

theorem sm2_failure_reset_witness :
    (1:ℤ) < 3 ∧
    ((sm2_update { hanzi := "a", repetitions := 4, interval := 10, ease_factor := 2 } 1 0).repetitions = 0 ∧
     (sm2_update { hanzi := "a", repetitions := 4, interval := 10, ease_factor := 2 } 1 0).interval = 1 ∧
     (sm2_update { hanzi := "a", repetitions := 4, interval := 10, ease_factor := 2 } 1 0).correct_reviews =
       ({ hanzi := "a", repetitions := 4, interval := 10, ease_factor := 2 } : CardState).correct_reviews ∧
     (sm2_update { hanzi := "a", repetitions := 4, interval := 10, ease_factor := 2 } 1 0).total_reviews =
       ({ hanzi := "a", repetitions := 4, interval := 10, ease_factor := 2 } : CardState).total_reviews + 1) :=
  ⟨by norm_num, sm2_failure_reset _ 1 0 (by norm_num)⟩

/-- C3: the new ease factor is exactly
`max(1.3, ef + (0.1 - (5-q)(0.08 + (5-q)·0.02)))` on success and failure
alike; hence `ease_factor ≥ 1.3` is preserved by one update and by any
number of consecutive quality-0 reviews. -/
theorem sm2_ease_formula_and_invariant (card : CardState) (q : ℤ) (now : ℚ)
    (hq0 : 0 ≤ q) (hq5 : q ≤ 5) (he : 13/10 ≤ card.ease_factor) :
    (sm2_update card q now).ease_factor =
      max (13/10)
        (card.ease_factor +
          (1/10 - ((5 - q : ℤ) : ℚ) * (2/25 + ((5 - q : ℤ) : ℚ) * (1/50)))) ∧
    13/10 ≤ (sm2_update card q now).ease_factor ∧
    ∀ times : List ℚ,
      13/10 ≤ (reviewSeq card (times.map (fun t => ((0:ℤ), t)))).ease_factor := by
  refine ⟨?_, sm2_update_ease_lb card q now, ?_⟩
  · simp only [sm2_update]
    split_ifs <;> simp
  · intro times
    induction times generalizing card he with
    | nil => exact he
    | cons t rest ih =>
        exact ih (sm2_update card 0 t) (sm2_update_ease_lb card 0 t)

theorem sm2_ease_formula_and_invariant_witness :
    ((0:ℤ) ≤ 0 ∧ (0:ℤ) ≤ 5 ∧ (13:ℚ)/10 ≤ (freshCard "a").ease_factor) ∧
    ((sm2_update (freshCard "a") 0 0).ease_factor =
       max (13/10)
         ((freshCard "a").ease_factor +
           (1/10 - ((5 - 0 : ℤ) : ℚ) * (2/25 + ((5 - 0 : ℤ) : ℚ) * (1/50)))) ∧
     13/10 ≤ (sm2_update (freshCard "a") 0 0).ease_factor ∧
     ∀ times : List ℚ,
       13/10 ≤ (reviewSeq (freshCard "a") (times.map (fun t => ((0:ℤ), t)))).ease_factor) :=
  ⟨⟨by norm_num, by norm_num, by norm_num [freshCard]⟩,
   sm2_ease_formula_and_invariant (freshCard "a") 0 0 (by norm_num) (by norm_num)
     (by norm_num [freshCard])⟩

end Srs

namespace Srs

/-- `ProgressTracker.get_due_cards`, over the tracker's card map and the
current time. -/
def get_due_cards (cards : List (String × CardState)) (now : ℚ) : List String :=
  (cards.filter (fun p => is_due p.2 now)).map Prod.fst

lemma floor_le_pyRound (q : ℚ) : ⌊q⌋ ≤ pyRound q := by
  simp only [pyRound]
  split_ifs <;> omega

lemma one_le_pyRound (q : ℚ) (h : 1 ≤ q) : 1 ≤ pyRound q := by
  have h1 : (1:ℤ) ≤ ⌊q⌋ := Int.le_floor.mpr (by exact_mod_cast h)
  exact le_trans h1 (floor_le_pyRound q)

/-- C8: `mastery_level` depends only on `repetitions`, with the bands
0 → new, 1-2 → learning, 3-5 → reviewing, ≥6 → mastered. -/
theorem mastery_level_spec (c : CardState) :
    (c.repetitions = 0 → mastery_level c = "new") ∧
    ((c.repetitions = 1 ∨ c.repetitions = 2) → mastery_level c = "learning") ∧
    ((c.repetitions = 3 ∨ c.repetitions = 4 ∨ c.repetitions = 5) →
        mastery_level c = "reviewing") ∧
    (6 ≤ c.repetitions → mastery_level c = "mastered") ∧
    (∀ c' : CardState, c.repetitions = c'.repetitions →
        mastery_level c = mastery_level c') := by
  refine ⟨?_, ?_, ?_, ?_, ?_⟩
  · intro h
    norm_num [mastery_level, h]
  · rintro (h | h) <;> norm_num [mastery_level, h]
  · rintro (h | h | h) <;> norm_num [mastery_level, h]
  · intro h
    rw [mastery_level]
    rw [if_neg (by linarith), if_neg (by push_neg; linarith), if_neg (by push_neg; linarith)]
  · intro c' h
    simp only [mastery_level, h]

theorem mastery_level_spec_witness :
    mastery_level { hanzi := "a" } = "new" ∧
    mastery_level { hanzi := "a", repetitions := 2 } = "learning" ∧
    mastery_level { hanzi := "a", repetitions := 4 } = "reviewing" ∧
    mastery_level { hanzi := "a", repetitions := 7 } = "mastered" :=
  ⟨(mastery_level_spec _).1 rfl,
   (mastery_level_spec _).2.1 (Or.inr rfl),
   (mastery_level_spec _).2.2.1 (Or.inr (Or.inl rfl)),
   (mastery_level_spec _).2.2.2.1 (by norm_num)⟩

lemma sm2_update_counters (c : CardState) (q : ℤ) (now : ℚ)
    (h0 : 0 ≤ c.correct_reviews) (h1 : c.correct_reviews ≤ c.total_reviews) :
    0 ≤ (sm2_update c q now).correct_reviews ∧
    (sm2_update c q now).correct_reviews ≤ (sm2_update c q now).total_reviews := by
  simp only [sm2_update]
  split_ifs <;> constructor <;> simp <;> linarith

lemma reviewSeq_counters (c : CardState) (l : List (ℤ × ℚ))
    (h0 : 0 ≤ c.correct_reviews) (h1 : c.correct_reviews ≤ c.total_reviews) :
    0 ≤ (reviewSeq c l).correct_reviews ∧
    (reviewSeq c l).correct_reviews ≤ (reviewSeq c l).total_reviews := by
  induction l generalizing c with
  | nil => exact ⟨h0, h1⟩
  | cons p rest ih =>
      obtain ⟨a, b⟩ := sm2_update_counters c p.1 p.2 h0 h1
      exact ih (sm2_update c p.1 p.2) a b

/-- C9: `total_reviews` and `correct_reviews` never decrease under any
update, and every card reachable from a fresh card by a sequence of
reviews satisfies `total_reviews ≥ correct_reviews ≥ 0`. -/
theorem counters_monotone_and_invariant :
    (∀ (card : CardState) (q : ℤ) (now : ℚ),
       card.total_reviews ≤ (sm2_update card q now).total_reviews ∧
       card.correct_reviews ≤ (sm2_update card q now).correct_reviews) ∧
    (∀ (h : String) (l : List (ℤ × ℚ)),
       0 ≤ (reviewSeq (freshCard h) l).correct_reviews ∧
       (reviewSeq (freshCard h) l).correct_reviews ≤
         (reviewSeq (freshCard h) l).total_reviews) := by
  constructor
  · intro card q now
    simp only [sm2_update]
    split_ifs <;> constructor <;> simp <;> linarith
  · intro h l
    exact reviewSeq_counters (freshCard h) l (by norm_num [freshCard]) (by norm_num [freshCard])

/-- C10: `sm2_update` is a total function on all integer qualities:
`quality ≥ 3` is treated as success, `quality < 3` (negatives included)
as failure, and a card satisfying `ease_factor ≥ 1.3` and `interval ≥ 1`
still satisfies both bounds after the update. -/
theorem sm2_total_and_bounds (card : CardState) (q : ℤ) (now : ℚ) :
    (3 ≤ q → (sm2_update card q now).correct_reviews = card.correct_reviews + 1 ∧
             (sm2_update card q now).repetitions = card.repetitions + 1) ∧
    (q < 3 → (sm2_update card q now).repetitions = 0 ∧
             (sm2_update card q now).interval = 1 ∧
             (sm2_update card q now).correct_reviews = card.correct_reviews) ∧
    (13/10 ≤ card.ease_factor → 1 ≤ card.interval →
       13/10 ≤ (sm2_update card q now).ease_factor ∧
       1 ≤ (sm2_update card q now).interval) := by
  refine ⟨?_, ?_, ?_⟩
  · intro h
    simp only [sm2_update, if_pos h]
    exact ⟨trivial, trivial⟩
  · intro h
    simp only [sm2_update, if_neg (not_le.mpr h)]
    exact ⟨trivial, trivial, trivial⟩
  · intro he hi
    refine ⟨sm2_update_ease_lb card q now, ?_⟩
    simp only [sm2_update]
    split_ifs with h h0 h1
    · norm_num
    · norm_num
    · have hx : (1:ℚ) ≤ card.interval * card.ease_factor := by nlinarith
      have h2 := one_le_pyRound _ hx
      show (1:ℚ) ≤ ((pyRound (card.interval * card.ease_factor) : ℤ) : ℚ)
      exact_mod_cast h2
    · norm_num

theorem sm2_total_and_bounds_witness :
    ((-2:ℤ) < 3 ∧
      ((sm2_update { hanzi := "a", interval := 1 } (-2) 0).repetitions = 0 ∧
       (sm2_update { hanzi := "a", interval := 1 } (-2) 0).interval = 1 ∧
       (sm2_update { hanzi := "a", interval := 1 } (-2) 0).correct_reviews =
         ({ hanzi := "a", interval := 1 } : CardState).correct_reviews)) ∧
    ((13:ℚ)/10 ≤ ({ hanzi := "a", interval := 1 } : CardState).ease_factor ∧
     (1:ℚ) ≤ ({ hanzi := "a", interval := 1 } : CardState).interval ∧
     (13/10 ≤ (sm2_update { hanzi := "a", interval := 1 } (-2) 0).ease_factor ∧
      1 ≤ (sm2_update { hanzi := "a", interval := 1 } (-2) 0).interval)) :=
  ⟨⟨by norm_num, (sm2_total_and_bounds _ (-2) 0).2.1 (by norm_num)⟩,
   ⟨by norm_num, by norm_num,
    (sm2_total_and_bounds { hanzi := "a", interval := 1 } (-2) 0).2.2
      (by norm_num) (by norm_num)⟩⟩

end Srs

namespace Srs

/-- C7: `get_due_cards` returns exactly the identifiers whose
`next_review ≤ now`, and after any review with quality in [0,5] of a card
satisfying the maintained invariants, `next_review = now + interval·86400`
with `interval ≥ 1`, so the card is not due before that time. -/
theorem due_schedule_spec (cards : List (String × CardState)) (now : ℚ)
    (card : CardState) (q : ℤ) (t : ℚ)
    (hq0 : 0 ≤ q) (hq5 : q ≤ 5)
    (he : 13/10 ≤ card.ease_factor)
    (hi : card.repetitions ≠ 0 → card.repetitions ≠ 1 → 1 ≤ card.interval) :
    (∀ h : String, h ∈ get_due_cards cards now ↔
        ∃ c : CardState, (h, c) ∈ cards ∧ c.next_review ≤ now) ∧
    (sm2_update card q t).next_review = t + (sm2_update card q t).interval * 86400 ∧
    1 ≤ (sm2_update card q t).interval ∧
    ∀ s : ℚ, s < (sm2_update card q t).next_review →
      is_due (sm2_update card q t) s = false := by
  have hint : 1 ≤ (sm2_update card q t).interval := by
    simp only [sm2_update]
    split_ifs with h h0 h1
    · norm_num
    · norm_num
    · have hx : (1:ℚ) ≤ card.interval * card.ease_factor := by
        have := hi h0 h1
        nlinarith
      have h2 := one_le_pyRound _ hx
      show (1:ℚ) ≤ ((pyRound (card.interval * card.ease_factor) : ℤ) : ℚ)
      exact_mod_cast h2
    · norm_num
  refine ⟨?_, rfl, hint, ?_⟩
  · intro h
    simp only [get_due_cards, List.mem_map, List.mem_filter, is_due, decide_eq_true_eq]
    constructor
    · rintro ⟨⟨h1, c⟩, ⟨hm, hd⟩, rfl⟩
      exact ⟨c, hm, hd⟩
    · rintro ⟨c, hm, hd⟩
      exact ⟨(h, c), ⟨hm, hd⟩, rfl⟩
  · intro s hs
    simp only [is_due, decide_eq_false_iff_not]
    exact not_le.mpr hs

theorem due_schedule_spec_witness :
    ((0:ℤ) ≤ 4 ∧ (4:ℤ) ≤ 5 ∧ (13:ℚ)/10 ≤ (freshCard "a").ease_factor) ∧
    ((∀ h : String, h ∈ get_due_cards [("a", freshCard "a")] 0 ↔
        ∃ c : CardState, (h, c) ∈ [("a", freshCard "a")] ∧ c.next_review ≤ 0) ∧
     (sm2_update (freshCard "a") 4 7).next_review =
       7 + (sm2_update (freshCard "a") 4 7).interval * 86400 ∧
     1 ≤ (sm2_update (freshCard "a") 4 7).interval ∧
     ∀ s : ℚ, s < (sm2_update (freshCard "a") 4 7).next_review →
       is_due (sm2_update (freshCard "a") 4 7) s = false) :=
  ⟨⟨by norm_num, by norm_num, by norm_num [freshCard]⟩,
   due_schedule_spec [("a", freshCard "a")] 0 (freshCard "a") 4 7 (by norm_num)
     (by norm_num) (by norm_num [freshCard]) (fun h0 _ => absurd rfl h0)⟩

end Srs

namespace Srs

/-!
`ProgressTracker._update_streak` works on ISO date strings produced by
`strftime("%Y-%m-%d")`.  Well-formed session dates are modelled by their
absolute day number `d : ℤ`; the empty string (no previous session) is
`none`.  Distinct day numbers correspond to distinct canonical strings,
`strptime` succeeds on every canonical string, and the `timedelta.days`
of the difference of two such dates is exactly the difference of their
day numbers, so string equality is `Option.decEq` and the parsed day
difference is subtraction here.  The source also computes a variable
named `yesterday` with `datetime.now(...)`, which yields today's date
again; the embedding keeps that faithfully.
-/

/-- `ProgressTracker._update_streak`: takes the mutable fields
`(streak, last_session_date, total_sessions)` and today's date, returns
their new values. -/
def update_streak (streak : ℤ) (last : Option ℤ) (total_sessions : ℤ)
    (today : ℤ) : ℤ × Option ℤ × ℤ :=
  if last ≠ some today then
    let yesterday : ℤ := today
    let streak1 : ℤ :=
      if last = some yesterday ∨ last = none then streak + 1
      else
        match last with
        | none => streak
        | some l =>
          let diff := today - l
          if diff = 1 then streak + 1
          else if 1 < diff then 1
          else streak
    (streak1, some today, total_sessions + 1)
  else (streak, last, total_sessions)

/-- C4: the streak update is a no-op when the last session was today;
on a first-ever session the streak becomes 1; after exactly one day it
increments; after more than one day it resets to 1; and on every date
change `total_sessions` increments and the session date becomes today. -/
theorem update_streak_spec (streak total today : ℤ) :
    (update_streak streak (some today) total today = (streak, some today, total)) ∧
    (streak = 0 →
      update_streak streak none total today = (1, some today, total + 1)) ∧
    (∀ d : ℤ, today - d = 1 →
      update_streak streak (some d) total today = (streak + 1, some today, total + 1)) ∧
    (∀ d : ℤ, 1 < today - d →
      update_streak streak (some d) total today = (1, some today, total + 1)) ∧
    (∀ last : Option ℤ, last ≠ some today →
      (update_streak streak last total today).2.1 = some today ∧
      (update_streak streak last total today).2.2 = total + 1) := by
  refine ⟨?_, ?_, ?_, ?_, ?_⟩
  · simp [update_streak]
  · intro h
    simp [update_streak, h]
  · intro d hd
    have hne : d ≠ today := by omega
    simp only [update_streak]
    rw [if_pos (by simp [hne]), if_neg (by simp [hne])]
    simp [hd]
  · intro d hd
    have hne : d ≠ today := by omega
    have hd1 : today - d ≠ 1 := by omega
    simp only [update_streak]
    rw [if_pos (by simp [hne]), if_neg (by simp [hne])]
    simp [hd1, hd]
  · intro last hl
    simp only [update_streak, if_pos hl]
    simp

theorem update_streak_spec_witness :
    (update_streak 4 (some 20) 9 20 = (4, some 20, 9)) ∧
    ((0:ℤ) = 0 ∧ update_streak 0 none 0 20 = (1, some 20, 1)) ∧
    ((21:ℤ) - 20 = 1 ∧ update_streak 4 (some 20) 9 21 = (5, some 21, 10)) ∧
    ((1:ℤ) < 23 - 20 ∧ update_streak 4 (some 20) 9 23 = (1, some 23, 10)) ∧
    (some (25:ℤ) ≠ some (20:ℤ) ∧
      (update_streak 4 (some 25) 9 20).2.1 = some 20 ∧
      (update_streak 4 (some 25) 9 20).2.2 = 10) :=
  ⟨(update_streak_spec 4 9 20).1,
   ⟨rfl, (update_streak_spec 0 0 20).2.1 rfl⟩,
   ⟨by norm_num, (update_streak_spec 4 9 21).2.2.1 20 (by norm_num)⟩,
   ⟨by norm_num, (update_streak_spec 4 9 23).2.2.2.1 20 (by norm_num)⟩,
   ⟨by norm_num, (update_streak_spec 4 9 20).2.2.2.2 (some 25) (by norm_num)⟩⟩

end Srs

namespace Srs

/-- JSON values, the data produced by `json.loads` / consumed by
`json.dumps` in `srs.py`.  Numbers are exact rationals (Python ints and
the floats the program stores). -/
inductive Json where
  | null
  | bool (b : Bool)
  | num (q : ℚ)
  | str (s : String)
  | arr (xs : List Json)
  | obj (fields : List (String × Json))

/-- Python `dict` key lookup on an association list (dict keys written by
`srs.py` are unique, so first-match lookup is dict lookup). -/
def jLookup : List (String × Json) → String → Option Json
  | [], _ => none
  | (k, v) :: rest, key => if k = key then some v else jLookup rest key

/-- `data.get(k, default)` for a numeric slot.  Python returns the raw
untyped value; the tracker only ever writes numbers into these slots, and
a non-numeric value is modelled by the default. -/
def getNum (fields : List (String × Json)) (k : String) (d : ℚ) : ℚ :=
  match jLookup fields k with
  | some (Json.num q) => q
  | _ => d

/-- `data.get(k, default)` for a string slot. -/
def getStr (fields : List (String × Json)) (k : String) (d : String) : String :=
  match jLookup fields k with
  | some (Json.str s) => s
  | _ => d

/-- Tracker persistent state: the fields of `ProgressTracker` that
`save`/`_load` touch. -/
structure Tracker where
  cards : List (String × CardState)
  streak : ℚ
  last_session_date : String
  total_sessions : ℚ

/-- The fresh state set up by `ProgressTracker.__init__` before `_load`. -/
def freshTracker : Tracker :=
  { cards := [], streak := 0, last_session_date := "", total_sessions := 0 }

/-- `dataclasses.asdict(card)`: field order is declaration order. -/
def cardToJson (c : CardState) : Json :=
  Json.obj [("hanzi", Json.str c.hanzi),
            ("ease_factor", Json.num c.ease_factor),
            ("interval", Json.num c.interval),
            ("repetitions", Json.num c.repetitions),
            ("next_review", Json.num c.next_review),
            ("total_reviews", Json.num c.total_reviews),
            ("correct_reviews", Json.num c.correct_reviews),
            ("last_reviewed", Json.num c.last_reviewed)]

/-- The JSON structure written by `ProgressTracker.save`. -/
def saveTracker (t : Tracker) : Json :=
  Json.obj [("streak", Json.num t.streak),
            ("last_session_date", Json.str t.last_session_date),
            ("total_sessions", Json.num t.total_sessions),
            ("cards", Json.obj (t.cards.map (fun p => (p.1, cardToJson p.2))))]

/-- `CardState(**state)`: `none` models the `TypeError` Python raises when
`state` is not a mapping or lacks the mandatory `hanzi` argument (the
caller catches it); missing optional fields take the dataclass defaults.
(Python also raises `TypeError` on unknown extra keys; no claim exercises
that case and the model ignores extras.) -/
def cardOfJson : Json → Option CardState
  | Json.obj fs =>
      match jLookup fs "hanzi" with
      | some (Json.str h) =>
          some { hanzi := h,
                 ease_factor := getNum fs "ease_factor" (5/2),
                 interval := getNum fs "interval" 0,
                 repetitions := getNum fs "repetitions" 0,
                 next_review := getNum fs "next_review" 0,
                 total_reviews := getNum fs "total_reviews" 0,
                 correct_reviews := getNum fs "correct_reviews" 0,
                 last_reviewed := getNum fs "last_reviewed" 0 }
      | _ => none
  | _ => none

/-- The `for hanzi, state in data.get("cards", {}).items()` loop.  A
`TypeError` from `CardState(**state)` aborts the loop (it is caught by
`_load`'s handler with `pass`), keeping the cards already inserted. -/
def loadCards : List (String × Json) → List (String × CardState)
  | [] => []
  | (h, s) :: rest =>
      match cardOfJson s with
      | some c => (h, c) :: loadCards rest
      | none => []

/-- The uncaught exception `_load` can leak: `AttributeError`, raised by
`data.get(...)` when the parsed JSON is not an object, or by `.items()`
when the `"cards"` entry is not an object.  `_load` only catches
`json.JSONDecodeError`, `TypeError` and `KeyError`. -/
inductive LoadErr where
  | attrErr
  deriving DecidableEq

/-- `ProgressTracker._load`.  The file argument: `none` = file missing
(early return); `some none` = file present but not valid JSON
(`json.JSONDecodeError`, caught); `some (some v)` = file parses to the
JSON value `v`. -/
def loadTracker (file : Option (Option Json)) : Except LoadErr Tracker :=
  match file with
  | none => Except.ok freshTracker
  | some none => Except.ok freshTracker
  | some (some (Json.obj fs)) =>
      match (jLookup fs "cards").getD (Json.obj []) with
      | Json.obj cardFs =>
          Except.ok { streak := getNum fs "streak" 0,
                      last_session_date := getStr fs "last_session_date" "",
                      total_sessions := getNum fs "total_sessions" 0,
                      cards := loadCards cardFs }
      | _ => Except.error LoadErr.attrErr
  | some (some _) => Except.error LoadErr.attrErr

/-- C5: a persisted file holding the valid JSON document `[1, 2, 3]` (an
array, not an object) makes `_load` raise `AttributeError` to the caller:
`data.get` is called on a list, and `AttributeError` is not in the caught
exception tuple.  This contradicts the documented behaviour that a
malformed file never raises and yields a fresh tracker. -/
theorem load_raises_on_json_array :
    loadTracker (some (some (Json.arr [Json.num 1, Json.num 2, Json.num 3]))) =
      Except.error LoadErr.attrErr := rfl

lemma cardOfJson_cardToJson (c : CardState) : cardOfJson (cardToJson c) = some c := rfl

lemma loadCards_map (l : List (String × CardState)) :
    loadCards (l.map (fun p => (p.1, cardToJson p.2))) = l := by
  induction l with
  | nil => rfl
  | cons p rest ih =>
      simp only [List.map_cons, loadCards, cardOfJson_cardToJson]
      exact congrArg (List.cons p) ih

/-- C6: `save` followed by `_load` is the identity on the persisted
tracker state: streak, session date, session count and every card's
field values all round-trip exactly. -/
theorem save_load_roundtrip (t : Tracker) :
    loadTracker (some (some (saveTracker t))) = Except.ok t := by
  show Except.ok
      ({ streak := t.streak,
         last_session_date := t.last_session_date,
         total_sessions := t.total_sessions,
         cards := loadCards (t.cards.map (fun p => (p.1, cardToJson p.2))) } : Tracker) =
    Except.ok t
  rw [loadCards_map]

end Srs
